import Mathlib

/-!
Verification development for the web-tester repository.

The development shallowly embeds the parts of the program that the
specification's testable properties talk about:

* `internal/browser/events.go` — the `Request`/`Response` records, the
  append-only request list, the response map keyed by requestID
  (`Responses.Add`), and `Request.SetBody`;
* `internal/browser/browser.go` — `GetResponseBody` and the loop body of
  `WatchEventFinishers`;
* `internal/database/database.go` — `InsertIntoDB`.

Modelling conventions:

* Go byte slices (`[]byte`) and the `network.RequestID` string type are
  modelled as `String`; concatenating two `String`s concatenates exactly
  their byte contents, so no truncation/concatenation behaviour is lost.
* The Go map `map[network.RequestID]Response` is modelled as an association
  list in which assignment (`m[k] = v`) replaces any existing binding for
  `k`; reading a missing key yields the zero value of `Response`, as in Go.
* External collaborators are modelled as explicit parameters: the CDP call
  `network.GetResponseBody(id).Do(ctx)` is a function
  `fetch : String → Option String` (`none` = the call returned an error),
  `json.Marshal(event.Content)` is the `Option String` carried by the
  event (`none` = marshalling failed), `db.Exec` success is a `Bool`, and
  `net/url.Parse` is modelled by `urlParse` below, restricted to the URL
  shapes the specification exercises.
* Errors returned by a function are modelled as `Option String` holding the
  constant part of the corresponding `fmt.Errorf` message.
-/

set_option autoImplicit false

namespace WebTester

/-- One element of `Request.PostDataEntries` in the CDP payload: a chunk of
post data carried as a byte string (cdproto `network.PostDataEntry`). -/
structure PostDataEntry where
  bytes : String
deriving DecidableEq

/-- The `Request` object embedded in a `network.EventRequestWillBeSent`
payload; only the fields the program reads are modelled. -/
structure NetworkRequest where
  url : String
  postDataEntries : List PostDataEntry
deriving DecidableEq

/-- The CDP event `network.EventRequestWillBeSent`, as far as the program
reads it: a requestID and the embedded request with its post-data chunks. -/
structure EventRequestWillBeSent where
  requestID : String
  request : NetworkRequest
deriving DecidableEq

/-- `Request` from `internal/browser/events.go`.  `Content` is declared
`interface\x7b\x7d` in Go and holds a `*network.EventRequestWillBeSent` when the
listener built the record; `SetBody` type-asserts it to that type, so it is
modelled as `Option EventRequestWillBeSent` (`none` makes the assertion
panic, modelled by `Request.SetBody` returning `none`). -/
structure Request where
  requestID : String
  type : String
  url : String
  content : Option EventRequestWillBeSent
  body : String
deriving DecidableEq

/-- `Response` from `internal/browser/events.go`.  Its `Content` field is
never type-asserted by the program, so it is modelled opaquely. -/
structure Response where
  requestID : String
  type : String
  url : String
  content : String
  body : String
deriving DecidableEq

/-- The Go zero value of `Response`: every field at its zero value.  This is
what reading a missing key of the response map yields. -/
def zeroResponse : Response :=
  { requestID := "", type := "", url := "", content := "", body := "" }

/-- The response map `ResponseMap map[network.RequestID]Response` of the
`Responses` struct, modelled as an association list with at most one binding
per key. -/
abbrev Responses := List (String × Response)

/-- Go map assignment `m[k] = v`: the new binding replaces any previous
binding for `k`. -/
def mapSet (m : Responses) (k : String) (v : Response) : Responses :=
  (k, v) :: m.filter (fun p => p.1 ≠ k)

/-- Lookup of a key in the modelled response map (`v, ok := m[k]` with
`ok` as `Option`). -/
def lookupResp : Responses → String → Option Response
  | [], _ => none
  | (k, v) :: rest, rid => if k = rid then some v else lookupResp rest rid

/-- Go map read `m[k]`: yields the stored value, or the zero value of
`Response` when the key is absent — exactly what
`resp := responses.ResponseMap[event.RequestID]` does in
`WatchEventFinishers`. -/
def mapGet (m : Responses) (rid : String) : Response :=
  (lookupResp m rid).getD zeroResponse

/-- Number of bindings a modelled response map holds for a given key. -/
def countKey (m : Responses) (rid : String) : Nat :=
  (m.filter (fun p => p.1 = rid)).length

/-- `func (r *Responses) Add(response Response)` from
`internal/browser/events.go`: upsert into the response map keyed by
`response.RequestID` (the nil-map initialisation of the Go code is the
empty list here). -/
def Responses.Add (r : Responses) (response : Response) : Responses :=
  mapSet r response.requestID response

/-- The in-order concatenation loop over `PostDataEntries` inside
`Request.SetBody`: `for _, entry := range postDataEntries \x7b postData +=
entry.Bytes \x7d`. -/
def concatPostData (entries : List PostDataEntry) : String :=
  entries.foldl (fun acc entry => acc ++ entry.bytes) ""

/-- `func (r *Request) SetBody(ctx context.Context)` from
`internal/browser/events.go`.  Returns the updated request; `none` models
the panic of the type assertion
`r.Content.(*network.EventRequestWillBeSent)` when the content is not such
an event.  The `ctx` argument is unused by the Go function body and is
dropped. -/
def Request.SetBody (r : Request) : Option Request :=
  if r.type ≠ "request" then some r
  else
    match r.content with
    | none => none
    | some ev => some { r with body := concatPostData ev.request.postDataEntries }

/-- `func (b *Browser) GetResponseBody(logger, r *Response, responses *Responses) error`
from `internal/browser/browser.go`.  `fetch` models the CDP round trip
`network.GetResponseBody(r.RequestID).Do(ctx)`.  On fetch failure the
function returns the wrapped error and touches neither the response copy
nor the map; on success it sets `r.Body = body`, locks the mutex, and
performs the single map assignment `responses.ResponseMap[r.RequestID] = *r`.
The result triple is (returned error, final value of `*r`, final map). -/
def GetResponseBody (fetch : String → Option String) (r : Response) (responses : Responses) :
    Option String × Response × Responses :=
  match fetch r.requestID with
  | none => (some "could not get response body", r, responses)
  | some body =>
    let r1 : Response := { r with body := body }
    (none, r1, mapSet responses r1.requestID r1)

/-- One iteration of the `for event := range *f` loop of
`WatchEventFinishers` in `internal/browser/browser.go`: lock, read
`responses.ResponseMap[event.RequestID]` (zero value if absent), unlock,
then call `GetResponseBody` on the copy; the returned error is discarded. -/
def watchStep (fetch : String → Option String) (m : Responses) (rid : String) : Responses :=
  (GetResponseBody fetch (mapGet m rid) m).2.2

/-- The `WatchEventFinishers` loop run over a list of received
`EventLoadingFinished` requestIDs, in channel order. -/
def watchRun (fetch : String → Option String) (m : Responses) : List String → Responses
  | [] => m
  | rid :: rest => watchRun fetch (watchStep fetch m rid) rest

/-- The operations the program performs on the response map, in some
serialisation order: `addResp` is the listener's
`responses.Add(Response\x7bRequestID: ev.RequestID, Type: "response", URL:
ev.Response.URL, Content: ev\x7d)` — note the zero-valued (empty) body — and
`finish` is one iteration of the `WatchEventFinishers` loop. -/
inductive StoreOp where
  | addResp (rid ty url content : String)
  | finish (rid : String)

/-- Apply one response-map operation. -/
def applyOp (fetch : String → Option String) (m : Responses) : StoreOp → Responses
  | .addResp rid ty url content =>
    Responses.Add m { requestID := rid, type := ty, url := url, content := content, body := "" }
  | .finish rid => watchStep fetch m rid

/-- Run a sequence of response-map operations from the initial (empty)
map, as `main` sets it up (`var responses = browser.Responses\x7b\x7d`). -/
def runOps (fetch : String → Option String) (ops : List StoreOp) : Responses :=
  ops.foldl (applyOp fetch) []

/-- Where the single atomic `Responses.Add` lands relative to the two
critical sections that together make up one finished-load handling: the
locked read in `WatchEventFinishers`, and the locked write-back in
`GetResponseBody` (the unlocked CDP body fetch sits between them). -/
inductive AddPos where
  | before
  | between
  | after
deriving DecidableEq

/-- Result of interleaving one atomic `Responses.Add` of `resp1` with one
finished-load handling for `rid` (read at the watch loop, fetch, locked
write-back), at each of the three possible positions.  `before` and
`after` are the two serial executions; `between` places the add inside
the unlocked window between the read and the write-back. -/
def fetchAddInterleaving (fetch : String → Option String) (m : Responses) (rid : String)
    (resp1 : Response) : AddPos → Responses
  | .before =>
    let m1 := Responses.Add m resp1
    (GetResponseBody fetch (mapGet m1 rid) m1).2.2
  | .between =>
    (GetResponseBody fetch (mapGet m rid) (Responses.Add m resp1)).2.2
  | .after =>
    Responses.Add ((GetResponseBody fetch (mapGet m rid) m).2.2) resp1

/-- The claim that the finished-load read-modify-write behaves as a single
critical section: any interleaving of a concurrent `Responses.Add` is
equivalent to one of the two serial executions. -/
def rmwSingleCriticalSection (fetch : String → Option String) (m : Responses) (rid : String)
    (resp1 : Response) : Prop :=
  fetchAddInterleaving fetch m rid resp1 .between = fetchAddInterleaving fetch m rid resp1 .before ∨
  fetchAddInterleaving fetch m rid resp1 .between = fetchAddInterleaving fetch m rid resp1 .after

/-- Parsed URL, as far as `InsertIntoDB` reads it (`parsedURL.Host`). -/
structure URL where
  scheme : String
  host : String
  path : String
deriving DecidableEq

/-- Scan for the first `"://"` in a character list; yields the part before
it and the part after it, or `none` when no `"://"` occurs. -/
def splitScheme : List Char → Option (List Char × List Char)
  | [] => none
  | c :: cs =>
    if c = ':' ∧ cs.take 2 = ['/', '/'] then some ([], cs.drop 2)
    else
      match splitScheme cs with
      | some (sch, rest) => some (c :: sch, rest)
      | none => none

/-- Model of `net/url.Parse`, restricted to the behaviours the program and
specification exercise: a string of the form `scheme://host/path` parses
with `Host = host` (the authority runs to the first slash); a string
beginning with `"://"` fails with Go's missing-protocol-scheme error; a
string with no `"://"` parses with an empty `Host` (Go treats it as a
path/opaque URL). -/
def urlParse (s : String) : Option URL :=
  match splitScheme s.data with
  | none => some { scheme := "", host := "", path := s }
  | some (sch, rest) =>
    if sch = [] then none
    else
      let hostChars := rest.takeWhile (fun c => c ≠ '/')
      some { scheme := ⟨sch⟩, host := ⟨hostChars⟩, path := ⟨rest.drop hostChars.length⟩ }

/-- The host-trimming step of `InsertIntoDB`:
`host = strings.Split(parsedURL.Host, ":")[0]`, i.e. the prefix of the
host before the first colon (the whole host if there is none). -/
def bareHost (host : String) : String :=
  ⟨host.data.takeWhile (fun c => c ≠ ':')⟩

/-- The anonymous event struct `InsertIntoDB` receives.  `Content` is
modelled by its JSON serialisation when `json.Marshal` succeeds and `none`
when it fails. -/
structure Event where
  requestID : String
  type : String
  url : String
  content : Option String
  body : String
deriving DecidableEq

/-- One row of the `events` table, the columns `InsertIntoDB` writes. -/
structure DBRow where
  test_id : String
  type : String
  domain : String
  payload : String
  body : String
deriving DecidableEq

/-- The serialisation step of `InsertIntoDB`: `string(eventJSON)` after
`eventJSON, err := json.Marshal(event.Content)` with the error branch
`eventJSON = []byte\x7b\x7d` (the failure is logged, not returned). -/
def payloadString : Option String → String
  | some j => j
  | none => ""

/-- `func InsertIntoDB(logger, db, testID, event) error` from
`internal/database/database.go`.  `execOk` models whether the
`db.Exec("INSERT INTO events ...")` round trip succeeds.  The result is
(returned error, events table after the call), with the table modelled as
the list of its rows in insertion order. -/
def InsertIntoDB (execOk : Bool) (testID : String) (event : Event) (db : List DBRow) :
    Option String × List DBRow :=
  let eventJSON := payloadString event.content
  match urlParse event.url with
  | none => (some "failed to parse URL", db)
  | some parsedURL =>
    let host := bareHost parsedURL.host
    if execOk then
      (none, db ++ [{ test_id := testID, type := event.type, domain := host,
                      payload := eventJSON, body := event.body }])
    else
      (some "failed to insert into events table", db)

/-- Run a sequence of listener `Responses.Add` calls from the initial empty
map, in completion order. -/
def runAdds (rs : List Response) : Responses :=
  rs.foldl Responses.Add []

/-- The last response of a sequence carrying the given requestID, if any
(the most recently added one for that key). -/
def lastWith (rid : String) : List Response → Option Response
  | [] => none
  | r :: rest =>
    match lastWith rid rest with
    | some x => some x
    | none => if r.requestID = rid then some r else none

/-- Body invariant of the response map: every stored `Response` has either
the empty body or exactly the byte content the body-retrieval call returns
for its own requestID. -/
def bodyInv (fetch : String → Option String) (m : Responses) : Prop :=
  ∀ k r, lookupResp m k = some r → r.body = "" ∨ fetch r.requestID = some r.body

/-- Looking a key up after filtering out all bindings of `k` gives `none`
for `k` itself and is unchanged elsewhere. -/
theorem lookupResp_filter_ne (m : Responses) (k rid : String) :
    lookupResp (m.filter (fun p => p.1 ≠ k)) rid =
      if rid = k then none else lookupResp m rid := by
  induction m with
  | nil => simp [lookupResp]
  | cons p rest ih =>
    obtain ⟨pk, pv⟩ := p
    by_cases hpk : pk = k <;> by_cases hrid : rid = k <;>
      by_cases hpr : pk = rid <;>
      simp_all [lookupResp, List.filter_cons]

/-- Lookup after a Go map assignment: the new binding at its key, the old
map elsewhere. -/
theorem lookupResp_mapSet (m : Responses) (k rid : String) (v : Response) :
    lookupResp (mapSet m k v) rid = if rid = k then some v else lookupResp m rid := by
  unfold mapSet
  by_cases h : rid = k
  · subst h; simp [lookupResp]
  · have hne : ¬ k = rid := fun hk => h hk.symm
    simp only [lookupResp, if_neg hne]
    rw [lookupResp_filter_ne, if_neg h, if_neg h]

/-- Binding count after filtering out a key. -/
theorem countKey_filter_ne (m : Responses) (k rid : String) :
    countKey (m.filter (fun p => p.1 ≠ k)) rid =
      if rid = k then 0 else countKey m rid := by
  induction m with
  | nil => simp [countKey]
  | cons p rest ih =>
    obtain ⟨pk, pv⟩ := p
    by_cases hpk : pk = k <;> by_cases hrid : rid = k <;>
      by_cases hpr : pk = rid <;>
      simp_all [countKey, List.filter_cons]

/-- A Go map assignment leaves exactly one binding at its key and does not
change the count at any other key. -/
theorem countKey_mapSet (m : Responses) (k rid : String) (v : Response) :
    countKey (mapSet m k v) rid = if rid = k then 1 else countKey m rid := by
  have hf := countKey_filter_ne m k rid
  by_cases h : rid = k
  · subst h
    simp only [if_pos rfl] at hf ⊢
    simp [mapSet, countKey, List.filter_cons] at hf ⊢
  · have hne : ¬ k = rid := fun hk => h hk.symm
    simp only [if_neg h] at hf ⊢
    simp [mapSet, countKey, List.filter_cons, hne] at hf ⊢
    exact hf

/-- Filtering a key out twice is the same as filtering it out once. -/
theorem filter_ne_idem (m : Responses) (k : String) :
    (m.filter (fun p => p.1 ≠ k)).filter (fun p => p.1 ≠ k) =
      m.filter (fun p => p.1 ≠ k) := by
  induction m with
  | nil => rfl
  | cons p rest ih =>
    by_cases hpk : p.1 = k <;> simp_all [List.filter_cons]

/-- Two successive Go map assignments to the same key collapse to the last
one. -/
theorem mapSet_mapSet (m : Responses) (k : String) (v w : Response) :
    mapSet (mapSet m k v) k w = mapSet m k w := by
  unfold mapSet
  simp [List.filter_cons, filter_ne_idem]

/-- After folding a sequence of `Responses.Add` calls over a map, a key is
bound to the most recently added response with that requestID, and to its
old binding if no added response carried it. -/
theorem lookupResp_foldl_add (rs : List Response) (m : Responses) (rid : String) :
    lookupResp (rs.foldl Responses.Add m) rid =
      match lastWith rid rs with
      | some r => some r
      | none => lookupResp m rid := by
  induction rs generalizing m with
  | nil => simp [lastWith]
  | cons r rest ih =>
    simp only [List.foldl_cons, lastWith]
    rw [ih]
    cases hlast : lastWith rid rest with
    | some x => rfl
    | none =>
      simp only [Responses.Add, lookupResp_mapSet]
      by_cases hr : r.requestID = rid
      · rw [if_pos hr, if_pos hr.symm]
      · rw [if_neg hr, if_neg (fun hk => hr hk.symm)]

/-- After folding a sequence of `Responses.Add` calls over a map, a key
added at least once holds exactly one binding. -/
theorem countKey_foldl_add (rs : List Response) (m : Responses) (rid : String) :
    countKey (rs.foldl Responses.Add m) rid =
      match lastWith rid rs with
      | some _ => 1
      | none => countKey m rid := by
  induction rs generalizing m with
  | nil => simp [lastWith]
  | cons r rest ih =>
    simp only [List.foldl_cons, lastWith]
    rw [ih]
    cases hlast : lastWith rid rest with
    | some x => rfl
    | none =>
      simp only [Responses.Add, countKey_mapSet]
      by_cases hr : r.requestID = rid
      · rw [if_pos hr, if_pos hr.symm]
      · rw [if_neg hr, if_neg (fun hk => hr hk.symm)]

/-- Assigning a response with an acceptable body into the map preserves the
body invariant. -/
theorem bodyInv_mapSet (fetch : String → Option String) (m : Responses) (k : String)
    (v : Response) (hm : bodyInv fetch m)
    (hv : v.body = "" ∨ fetch v.requestID = some v.body) :
    bodyInv fetch (mapSet m k v) := by
  intro k' r hr
  rw [lookupResp_mapSet] at hr
  by_cases h : k' = k
  · rw [if_pos h] at hr
    injection hr with hvr
    subst hvr
    exact hv
  · rw [if_neg h] at hr
    exact hm k' r hr

/-- Every response-map operation of the program preserves the body
invariant: the listener adds a response with an empty body, and the watch
loop stores a body that is exactly the fetched content for the stored
record's own requestID. -/
theorem bodyInv_applyOp (fetch : String → Option String) (m : Responses) (op : StoreOp)
    (hm : bodyInv fetch m) : bodyInv fetch (applyOp fetch m op) := by
  cases op with
  | addResp rid ty url content =>
    simp only [applyOp, Responses.Add]
    exact bodyInv_mapSet fetch m _ _ hm (Or.inl rfl)
  | finish rid =>
    simp only [applyOp, watchStep, GetResponseBody]
    cases hf : fetch (mapGet m rid).requestID with
    | none => simpa using hm
    | some b =>
      refine bodyInv_mapSet fetch m _ _ hm (Or.inr ?_)
      simpa using hf

/-- The body invariant holds after any fold of program operations over a
map satisfying it. -/
theorem bodyInv_foldl (fetch : String → Option String) (ops : List StoreOp) (m : Responses)
    (hm : bodyInv fetch m) : bodyInv fetch (ops.foldl (applyOp fetch) m) := by
  induction ops generalizing m with
  | nil => simpa using hm
  | cons op rest ih =>
    simp only [List.foldl_cons]
    exact ih _ (bodyInv_applyOp fetch m op hm)

/-- C6: for every sequence of `Responses.Add` calls and every requestID
that some added response carried, the response map retains exactly one
binding for that requestID, equal to the most recently added such response
(last write wins), and applying the same `Responses.Add` twice yields the
same map as applying it once (idempotent upsert). -/
theorem responses_add_last_write_wins (rs : List Response) (rid : String) (r : Response)
    (h : lastWith rid rs = some r) :
    lookupResp (runAdds rs) rid = some r ∧ countKey (runAdds rs) rid = 1 ∧
      ∀ m : Responses, Responses.Add (Responses.Add m r) r = Responses.Add m r := by
  refine ⟨?_, ?_, ?_⟩
  · rw [runAdds, lookupResp_foldl_add, h]
  · rw [runAdds, countKey_foldl_add, h]
  · intro m
    simp only [Responses.Add]
    exact mapSet_mapSet m r.requestID r r

/-- Witness for C6: two responses added under requestID "1"; the map holds
the later one. -/
theorem responses_add_last_write_wins_witness :
    lastWith "1"
        [{ requestID := "1", type := "response", url := "u0", content := "c0", body := "" },
         { requestID := "1", type := "response", url := "u1", content := "c1", body := "" }] =
      some { requestID := "1", type := "response", url := "u1", content := "c1", body := "" } ∧
    lookupResp (runAdds
        [{ requestID := "1", type := "response", url := "u0", content := "c0", body := "" },
         { requestID := "1", type := "response", url := "u1", content := "c1", body := "" }]) "1" =
      some { requestID := "1", type := "response", url := "u1", content := "c1", body := "" } :=
  ⟨by decide,
   (responses_add_last_write_wins
      [{ requestID := "1", type := "response", url := "u0", content := "c0", body := "" },
       { requestID := "1", type := "response", url := "u1", content := "c1", body := "" }]
      "1"
      { requestID := "1", type := "response", url := "u1", content := "c1", body := "" }
      (by decide)).1⟩

/-- C2: at every point of every sequence of response-map operations the
program performs (listener adds of empty-body responses, watch-loop
finished-load handlings), every stored `Response` has a body that is
either empty or exactly the byte content returned by the body-retrieval
call for its requestID — never a truncation or concatenation of fetches. -/
theorem capturedResponse_body_exact (fetch : String → Option String) (ops : List StoreOp)
    (k : String) (r : Response) (h : lookupResp (runOps fetch ops) k = some r) :
    r.body = "" ∨ fetch r.requestID = some r.body := by
  have hinv : bodyInv fetch (runOps fetch ops) := by
    refine bodyInv_foldl fetch ops [] ?_
    intro k' r' hr'
    simp [lookupResp] at hr'
  exact hinv k r h

/-- Witness for C2: one listener add followed by one finished-load
handling stores exactly the fetched body "BODY". -/
theorem capturedResponse_body_exact_witness :
    lookupResp (runOps (fun _ => some "BODY") [.addResp "1" "response" "u" "c", .finish "1"]) "1" =
      some { requestID := "1", type := "response", url := "u", content := "c", body := "BODY" } ∧
    (({ requestID := "1", type := "response", url := "u", content := "c", body := "BODY" } : Response).body = "" ∨
      (fun _ => some "BODY")
          ({ requestID := "1", type := "response", url := "u", content := "c", body := "BODY" } : Response).requestID =
        some ({ requestID := "1", type := "response", url := "u", content := "c", body := "BODY" } : Response).body) :=
  ⟨by decide,
   capturedResponse_body_exact (fun _ => some "BODY")
     [.addResp "1" "response" "u" "c", .finish "1"] "1"
     { requestID := "1", type := "response", url := "u", content := "c", body := "BODY" }
     (by decide)⟩

/-- C1 counterexample: with requestID "1" bound to a response with URL
"u0", a concurrent `Responses.Add` of a response with URL "u1" landing in
the unlocked window between the watch loop's locked read and
`GetResponseBody`'s locked write-back yields a map equal to neither
serial execution — the add's update is lost — so the read-modify-write of
a finished-load handling is not a single critical section of the
response-map lock. -/
theorem rmw_not_single_critical_section :
    ¬ rmwSingleCriticalSection (fun _ => some "BODY")
        [("1", { requestID := "1", type := "response", url := "u0", content := "c0", body := "" })]
        "1" { requestID := "1", type := "response", url := "u1", content := "c1", body := "" } := by
  unfold rmwSingleCriticalSection
  decide

/-- C1 (amended): every individual map write is atomic under the lock, so
in each interleaving of a concurrent `Responses.Add` with a finished-load
handling the final record under the requestID carries the body written by
the last completed map write; but the handling's read and write-back are
two separate critical sections, so an add landing between them is
overwritten wholesale by the stale copy: the final record keeps the old
response's URL and content with the fetched body, losing the add's
update. -/
theorem fetchAdd_interleaving_results (fetch : String → Option String) (m : Responses)
    (rid : String) (resp0 resp1 : Response) (b : String)
    (h0 : lookupResp m rid = some resp0) (h0id : resp0.requestID = rid)
    (h1id : resp1.requestID = rid) (hf : fetch rid = some b) :
    lookupResp (fetchAddInterleaving fetch m rid resp1 .before) rid =
      some { resp1 with body := b } ∧
    lookupResp (fetchAddInterleaving fetch m rid resp1 .between) rid =
      some { resp0 with body := b } ∧
    lookupResp (fetchAddInterleaving fetch m rid resp1 .after) rid = some resp1 := by
  have hget0 : mapGet m rid = resp0 := by simp [mapGet, h0]
  refine ⟨?_, ?_, ?_⟩
  · have hget1 : mapGet (Responses.Add m resp1) rid = resp1 := by
      simp [mapGet, Responses.Add, lookupResp_mapSet, h1id]
    simp only [fetchAddInterleaving, hget1, GetResponseBody, h1id, hf]
    simp [lookupResp_mapSet, h1id]
  · simp only [fetchAddInterleaving, hget0, GetResponseBody, h0id, hf]
    simp [lookupResp_mapSet, h0id]
  · simp only [fetchAddInterleaving, hget0, GetResponseBody, h0id, hf]
    simp [Responses.Add, lookupResp_mapSet, h1id]

/-- Witness for C1 (amended) at the concrete state of the counterexample:
the interleaved execution keeps URL "u0" with the fetched body. -/
theorem fetchAdd_interleaving_results_witness :
    lookupResp
        [("1", { requestID := "1", type := "response", url := "u0", content := "c0", body := "" })]
        "1" =
      some { requestID := "1", type := "response", url := "u0", content := "c0", body := "" } ∧
    lookupResp
        (fetchAddInterleaving (fun _ => some "BODY")
          [("1", { requestID := "1", type := "response", url := "u0", content := "c0", body := "" })]
          "1" { requestID := "1", type := "response", url := "u1", content := "c1", body := "" }
          .between)
        "1" =
      some { requestID := "1", type := "response", url := "u0", content := "c0", body := "BODY" } :=
  ⟨by decide,
   (fetchAdd_interleaving_results (fun _ => some "BODY")
      [("1", { requestID := "1", type := "response", url := "u0", content := "c0", body := "" })]
      "1"
      { requestID := "1", type := "response", url := "u0", content := "c0", body := "" }
      { requestID := "1", type := "response", url := "u1", content := "c1", body := "" }
      "BODY" (by decide) (by decide) (by decide) (by decide)).2.1⟩

/-- C7: when the body-retrieval call fails for the response copy the
watch loop read, `GetResponseBody` returns the wrapped error and leaves
both the copy and the response map unchanged, and no retry occurs:
handling the notification is equivalent to skipping it. -/
theorem getResponseBody_failure_no_retry (fetch : String → Option String) (m : Responses)
    (rid : String) (rest : List String)
    (h : fetch (mapGet m rid).requestID = none) :
    GetResponseBody fetch (mapGet m rid) m =
      (some "could not get response body", mapGet m rid, m) ∧
    watchStep fetch m rid = m ∧
    watchRun fetch m (rid :: rest) = watchRun fetch m rest := by
  have h1 : GetResponseBody fetch (mapGet m rid) m =
      (some "could not get response body", mapGet m rid, m) := by
    simp [GetResponseBody, h]
  have h2 : watchStep fetch m rid = m := by
    simp [watchStep, h1]
  exact ⟨h1, h2, by simp [watchRun, h2]⟩

/-- Witness for C7: a failing fetch leaves a one-entry map unchanged. -/
theorem getResponseBody_failure_no_retry_witness :
    ((fun _ => none : String → Option String)
        (mapGet [("1", { requestID := "1", type := "response", url := "u", content := "c", body := "" })]
          "1").requestID = none) ∧
    watchStep (fun _ => none)
        [("1", { requestID := "1", type := "response", url := "u", content := "c", body := "" })] "1" =
      [("1", { requestID := "1", type := "response", url := "u", content := "c", body := "" })] :=
  ⟨rfl,
   (getResponseBody_failure_no_retry (fun _ => none)
      [("1", { requestID := "1", type := "response", url := "u", content := "c", body := "" })]
      "1" [] rfl).2.1⟩

/-- C9: when a finished-load notification names a requestID with no entry
in the response map, the watch loop reads the zero-valued response, whose
own requestID is empty; a subsequently successful body fetch (issued for
the empty requestID) stores the body under the empty-string key of the
map, not under the notification's requestID, which stays unbound. -/
theorem watch_missing_entry_stores_under_empty_key (fetch : String → Option String)
    (m : Responses) (rid : String) (b : String)
    (hmiss : lookupResp m rid = none) (hrid : rid ≠ "") (hf : fetch "" = some b) :
    watchStep fetch m rid = mapSet m "" { zeroResponse with body := b } ∧
    lookupResp (watchStep fetch m rid) rid = none ∧
    lookupResp (watchStep fetch m rid) "" = some { zeroResponse with body := b } := by
  have hget : mapGet m rid = zeroResponse := by simp [mapGet, hmiss]
  have h1 : watchStep fetch m rid = mapSet m "" { zeroResponse with body := b } := by
    simp [watchStep, GetResponseBody, hget, zeroResponse, hf]
  refine ⟨h1, ?_, ?_⟩
  · rw [h1, lookupResp_mapSet, if_neg hrid]
    exact hmiss
  · rw [h1, lookupResp_mapSet, if_pos rfl]

/-- Witness for C9: fetching for a notification on an empty map stores
the body under the empty key. -/
theorem watch_missing_entry_stores_under_empty_key_witness :
    lookupResp ([] : Responses) "1" = none ∧
    watchStep (fun _ => some "B") [] "1" = mapSet [] "" { zeroResponse with body := "B" } :=
  ⟨rfl,
   (watch_missing_entry_stores_under_empty_key (fun _ => some "B") [] "1" "B"
      rfl (by decide) rfl).1⟩

/-- C3: for every event whose URL fails to parse, `InsertIntoDB` returns
the URL-parse error and writes no row: the events table is returned
unchanged, whatever the state of the database connection. -/
theorem insert_malformed_url_no_row (execOk : Bool) (testID : String) (event : Event)
    (db : List DBRow) (h : urlParse event.url = none) :
    InsertIntoDB execOk testID event db = (some "failed to parse URL", db) := by
  simp [InsertIntoDB, h]

/-- Witness for C3 at the missing-scheme URL "://a". -/
theorem insert_malformed_url_no_row_witness :
    urlParse "://a" = none ∧
    InsertIntoDB true "t"
        { requestID := "1", type := "request", url := "://a",
          content := some "payload", body := "b" } [] =
      (some "failed to parse URL", []) :=
  ⟨by decide,
   insert_malformed_url_no_row true "t"
     { requestID := "1", type := "request", url := "://a",
       content := some "payload", body := "b" }
     [] (by decide)⟩

/-- C5: for every event whose URL parses, `InsertIntoDB` persists as the
domain the bare host of the parsed URL — the prefix of its `Host` before
any colon, with scheme and path playing no part — and appends exactly one
row. -/
theorem insert_persists_bare_host (testID : String) (event : Event) (db : List DBRow)
    (u : URL) (h : urlParse event.url = some u) :
    InsertIntoDB true testID event db =
      (none, db ++ [{ test_id := testID, type := event.type, domain := bareHost u.host,
                      payload := payloadString event.content, body := event.body }]) := by
  simp [InsertIntoDB, h]

/-- Witness for C5: the URL https://example.com:8443/path persists the
domain exactly "example.com". -/
theorem insert_persists_bare_host_witness :
    urlParse "https://example.com:8443/path" =
      some { scheme := "https", host := "example.com:8443", path := "/path" } ∧
    InsertIntoDB true "t"
        { requestID := "1", type := "request", url := "https://example.com:8443/path",
          content := some "payload", body := "b" } [] =
      (none, [{ test_id := "t", type := "request", domain := "example.com",
                payload := "payload", body := "b" }]) := by
  refine ⟨by decide, ?_⟩
  have h := insert_persists_bare_host "t"
    { requestID := "1", type := "request", url := "https://example.com:8443/path",
      content := some "payload", body := "b" } []
    { scheme := "https", host := "example.com:8443", path := "/path" } (by decide)
  rw [h]
  decide

/-- C8: when the payload fails to serialize, `InsertIntoDB` does not
return a serialization error: it degrades to the empty payload and, the
URL parsing and the write succeeding, still appends the row — with empty
payload text — instead of aborting. -/
theorem insert_marshal_failure_degrades (testID : String) (event : Event) (db : List DBRow)
    (u : URL) (hc : event.content = none) (h : urlParse event.url = some u) :
    InsertIntoDB true testID event db =
      (none, db ++ [{ test_id := testID, type := event.type, domain := bareHost u.host,
                      payload := "", body := event.body }]) := by
  simp [InsertIntoDB, h, hc, payloadString]

/-- Witness for C8: an event whose payload marshalling failed is still
inserted, with the empty payload. -/
theorem insert_marshal_failure_degrades_witness :
    (({ requestID := "1", type := "response", url := "https://h/p",
        content := none, body := "b" } : Event).content = none) ∧
    InsertIntoDB true "t"
        { requestID := "1", type := "response", url := "https://h/p",
          content := none, body := "b" } [] =
      (none, [{ test_id := "t", type := "response", domain := "h",
                payload := "", body := "b" }]) := by
  refine ⟨rfl, ?_⟩
  have h := insert_marshal_failure_degrades "t"
    { requestID := "1", type := "response", url := "https://h/p",
      content := none, body := "b" } []
    { scheme := "https", host := "h", path := "/p" } rfl (by decide)
  rw [h]
  decide

/-- C4: for every request of kind "request" whose content is a
request-will-be-sent payload, `SetBody` sets the body to the in-order
concatenation of the payload's post-data byte chunks, leaving every other
field unchanged. -/
theorem setBody_concats_post_data (r : Request) (ev : EventRequestWillBeSent)
    (hty : r.type = "request") (hc : r.content = some ev) :
    Request.SetBody r = some { r with body := concatPostData ev.request.postDataEntries } := by
  simp [Request.SetBody, hty, hc]

/-- Witness for C4: post-data entries "ab", "cd" yield body "abcd". -/
theorem setBody_concats_post_data_witness :
    Request.SetBody
        { requestID := "r1", type := "request", url := "u",
          content := some { requestID := "r1",
                            request := { url := "u",
                                         postDataEntries := [{ bytes := "ab" }, { bytes := "cd" }] } },
          body := "" } =
      some { requestID := "r1", type := "request", url := "u",
             content := some { requestID := "r1",
                               request := { url := "u",
                                            postDataEntries := [{ bytes := "ab" }, { bytes := "cd" }] } },
             body := "abcd" } := by
  have h := setBody_concats_post_data
    { requestID := "r1", type := "request", url := "u",
      content := some { requestID := "r1",
                        request := { url := "u",
                                     postDataEntries := [{ bytes := "ab" }, { bytes := "cd" }] } },
      body := "" }
    { requestID := "r1",
      request := { url := "u", postDataEntries := [{ bytes := "ab" }, { bytes := "cd" }] } }
    rfl rfl
  rw [h]
  decide

/-- C10: for every request whose Type field is not "request", `SetBody`
is a no-op: it returns without reading the payload — even an absent
payload raises no type-assertion panic — and leaves every field of the
request, in particular its body, unchanged. -/
theorem setBody_noop_non_request (r : Request) (h : r.type ≠ "request") :
    Request.SetBody r = some r := by
  simp [Request.SetBody, h]

/-- Witness for C10: a response-typed request with no payload at all is
returned unchanged. -/
theorem setBody_noop_non_request_witness :
    (({ requestID := "r1", type := "response", url := "u", content := none,
        body := "b" } : Request).type ≠ "request") ∧
    Request.SetBody
        { requestID := "r1", type := "response", url := "u", content := none, body := "b" } =
      some { requestID := "r1", type := "response", url := "u", content := none, body := "b" } :=
  ⟨by decide,
   setBody_noop_non_request
     { requestID := "r1", type := "response", url := "u", content := none, body := "b" }
     (by decide)⟩

end WebTester
